import Mathlib

/-!
Verification development for the panzer run-list construction and
script-execution engine (src/panzer/cli.py, src/panzer/panzer.py,
src/panzer/util.py).  The Python sources are shallowly embedded as
executable Lean definitions: the filesystem is a predicate on path
strings, child-process behaviour is a function from a command to an
abstract outcome, and the parts of the build pipeline that live outside
the embedded modules are abstract event lists.
-/

namespace Panzer

/-! ## Path utilities (embedding of the posixpath functions used by the sources) -/

/-- Last index of a character in a character list, if any. -/
def lastIdxOf (l : List Char) (c : Char) : Option Nat :=
  ((l.enum.filter (fun p => p.2 == c)).map Prod.fst).getLast?

/-- Embedding of posixpath.splitext: split a path into stem and
extension.  The extension starts at the last dot of the final path
component, unless every character of that component before the dot is
itself a dot (so a leading-dot name such as .bashrc has no extension). -/
def splitext (s : String) : String × String :=
  let l := s.toList
  let start : Nat := match lastIdxOf l '/' with | none => 0 | some i => i + 1
  match lastIdxOf l '.' with
  | none => (s, "")
  | some d =>
    if start ≤ d ∧ (List.range d).any (fun i => decide (start ≤ i) && decide (l.getD i '.' ≠ '.')) then
      (String.mk (l.take d), String.mk (l.drop d))
    else
      (s, "")

/-- Embedding of os.path.basename for posix paths: everything after the
last path separator. -/
def path_basename (s : String) : String :=
  match lastIdxOf s.toList '/' with
  | none => s
  | some i => String.mk (s.toList.drop (i + 1))

/-- Embedding of the two-argument posixpath.join. -/
def joinPath (a b : String) : String :=
  match b.toList with
  | '/' :: _ => b
  | _ =>
    if a = "" then a ++ b
    else match a.toList.getLast? with
      | some '/' => a ++ b
      | _ => a ++ "/" ++ b

/-- Lowercase a string character by character, as the str.lower method
does on the ASCII file extensions that appear in the sources. -/
def lowerStr (s : String) : String :=
  String.mk (s.toList.map Char.toLower)

/-- First-match association-list lookup, the embedding of a Python dict
lookup (the dicts in the sources never carry duplicate keys). -/
def alookup {β : Type} : List (String × β) → String → Option β
  | [], _ => none
  | (k, v) :: rest, key => if k = key then some v else alookup rest key

/-! ## Option records (cli.py, default_options) -/

/-- Default panzer support directory; the leading tilde stands for the
expanded user home directory of os.path.expanduser. -/
def DEFAULT_SUPPORT_DIR : String := joinPath "~" ".panzer"

/-- Minimum pandoc version required by panzer.py. -/
def REQUIRE_PANDOC_ATLEAST : String := "1.12.1"

/-- The panzer sub-record of the options dict.  The command-line flag
---panzer-support is stored by the update loop under the argparse
destination name panzer_support, which is a key distinct from the
default key support; the extra optional field models that added key. -/
structure PanzerOpts where
  support : String
  debug : Bool
  verbose : Int
  stdin_temp_file : String
  panzer_support : Option String
deriving DecidableEq, Repr

/-- The pandoc sub-record of the options dict. -/
structure PandocOpts where
  input : List String
  output : String
  pdf_output : Bool
  read : String
  write : String
  template : String
  filter : List (List String)
  options : List String
deriving DecidableEq, Repr

/-- The full options record. -/
structure Options where
  panzer : PanzerOpts
  pandoc : PandocOpts
deriving DecidableEq, Repr

/-- Embedding of cli.default_options. -/
def default_options : Options :=
  { panzer :=
      { support := DEFAULT_SUPPORT_DIR
        debug := false
        verbose := 1
        stdin_temp_file := ""
        panzer_support := none }
    pandoc :=
      { input := []
        output := "-"
        pdf_output := false
        read := ""
        write := ""
        template := ""
        filter := []
        options := [] } }

/-- Writer table of parse_cli_options: static extension-to-format map. -/
def pandoc_writer_mapping : List (String × String) :=
  [("", "markdown"),
   (".tex", "latex"),
   (".latex", "latex"),
   (".ltx", "latex"),
   (".context", "context"),
   (".ctx", "context"),
   (".rtf", "rtf"),
   (".rst", "rst"),
   (".s5", "s5"),
   (".native", "native"),
   (".json", "json"),
   (".txt", "markdown"),
   (".text", "markdown"),
   (".md", "markdown"),
   (".markdown", "markdown"),
   (".textile", "textile"),
   (".lhs", "markdown+lhs"),
   (".texi", "texinfo"),
   (".texinfo", "texinfo"),
   (".db", "docbook"),
   (".odt", "odt"),
   (".docx", "docx"),
   (".epub", "epub"),
   (".org", "org"),
   (".asciidoc", "asciidoc"),
   (".pdf", "latex"),
   (".fb2", "fb2"),
   (".opml", "opml"),
   (".1", "man"),
   (".2", "man"),
   (".3", "man"),
   (".4", "man"),
   (".5", "man"),
   (".6", "man"),
   (".7", "man"),
   (".8", "man"),
   (".9", "man")]

/-- Values parsed by the panzer argparse run (argparse destination
names); a missing flag parses to None, a given flag to its value. -/
structure PanzerParsed where
  panzer_support : Option String
  debug : Bool
  verbose : Option Int
deriving DecidableEq, Repr

/-- Values parsed by the pandoc argparse run. -/
structure PandocParsed where
  read : Option String
  write : Option String
  output : Option String
  template : Option String
  filter : Option (List (List String))
deriving DecidableEq, Repr

/-- Truthiness of an optional string value, as tested by the update
loops of parse_cli_options. -/
def truthyStr : Option String → Bool
  | none => false
  | some s => decide (s ≠ "")

/-- Truthiness of an optional integer value. -/
def truthyInt : Option Int → Bool
  | none => false
  | some n => decide (n ≠ 0)

/-- Truthiness of an optional list value. -/
def truthyFilterList : Option (List (List String)) → Bool
  | none => false
  | some l => decide (l ≠ [])

/-- Embedding of the first update loop of parse_cli_options: a parsed
panzer value replaces the stored one only when it is truthy.  The
parsed panzer_support value lands under the dict key panzer_support,
leaving the default key support untouched. -/
def update_panzer_options (o : PanzerOpts) (p : PanzerParsed) : PanzerOpts :=
  { o with
    panzer_support := if truthyStr p.panzer_support then p.panzer_support else o.panzer_support
    debug := if p.debug then p.debug else o.debug
    verbose := if truthyInt p.verbose then p.verbose.getD 0 else o.verbose }

/-- Embedding of the second update loop of parse_cli_options, for the
five pandoc argparse destinations. -/
def update_pandoc_options (o : PandocOpts) (p : PandocParsed) : PandocOpts :=
  { o with
    read := if truthyStr p.read then p.read.getD "" else o.read
    write := if truthyStr p.write then p.write.getD "" else o.write
    output := if truthyStr p.output then p.output.getD "" else o.output
    template := if truthyStr p.template then p.template.getD "" else o.template
    filter := if truthyFilterList p.filter then p.filter.getD [] else o.filter }

/-- Step 3 of parse_cli_options: mark pdf output when the lowercased
output extension is .pdf. -/
def set_pdf_output (o : PandocOpts) : PandocOpts :=
  if lowerStr (splitext o.output).2 = ".pdf" then { o with pdf_output := true } else o

/-- Step 4 of parse_cli_options: detect the pandoc writer.  An explicit
writer wins; standard output defaults to html; otherwise the lowercased
output extension is looked up in the writer table, falling back to
html. -/
def detect_writer (o : PandocOpts) : PandocOpts :=
  if o.write ≠ "" then o
  else if o.output = "-" then { o with write := "html" }
  else
    match alookup pandoc_writer_mapping (lowerStr (splitext o.output).2) with
    | some w => { o with write := w }
    | none => { o with write := "html" }

/-- Step 5 of parse_cli_options: if the literal token - appears among
the residual tokens, read all of standard input, write it to a fresh
temporary file (whose path is supplied here by the operating system),
record that path, and replace every occurrence of the - token with it.
Returns the rewritten token list, the recorded stdin_temp_file value,
and the bytes written to the temporary file, if any. -/
def stdin_capture (unknown : List String) (stdinBytes : List UInt8) (tempPath : String) :
    List String × String × Option (List UInt8) :=
  if "-" ∈ unknown then
    (unknown.map (fun v => if v = "-" then tempPath else v), tempPath, some stdinBytes)
  else
    (unknown, "", none)

/-- Embedding of parse_cli_options, steps 2 through 7, over the values
produced by the two argparse runs.  External effects are parameters:
stdinBytes is the content of standard input, tempPath the temporary
file name chosen by the operating system, and dumpLines the output
lines of the wrapped tool run with --dump-args (first line the output
target, remaining lines the discovered input files).  The second
component of the result is the byte content written to the temporary
file, if one was created. -/
def parse_cli_options (options : Options) (pz : PanzerParsed) (pd : PandocParsed)
    (unknown0 : List String) (stdinBytes : List UInt8) (tempPath : String)
    (dumpLines : List String) : Options × Option (List UInt8) :=
  let panzerOpts := update_panzer_options options.panzer pz
  let pandocOpts := update_pandoc_options options.pandoc pd
  let pandocOpts := set_pdf_output pandocOpts
  let pandocOpts := detect_writer pandocOpts
  let captured := stdin_capture unknown0 stdinBytes tempPath
  let panzerOpts := { panzerOpts with stdin_temp_file := captured.2.1 }
  let inputs := dumpLines.drop 1
  let unknown2 := captured.1.filter (fun a => decide (a ∉ inputs))
  let pandocOpts := { pandocOpts with input := inputs, options := unknown2 }
  (⟨panzerOpts, pandocOpts⟩, captured.2.2)

/-! ## Metadata model

Modelled from the spec: the metadata wire format has every node as a
pair of a kind tag and a content payload; the kinds this core reads are
MetaBool, MetaInlines, MetaList and MetaMap.  The decoder helpers
get_type and get_content and the exception classes live in repository
modules that are not under src, so they are modelled from the spec
here: get_type returns the kind tag of the node stored under a key,
get_content returns the node itself after checking its tag against the
expected kind, and a missing key or a wrong tag is an error. -/

/-- Inline text element, the payload of a MetaInlines node, as consumed
by the stringify function of the pandocfilters library. -/
inductive Inline where
  | str (s : String)
  | space
deriving DecidableEq, Repr

/-- Embedding of pandocfilters.stringify restricted to the inline
shapes above: concatenate the text, with a space for each space. -/
def stringify (xs : List Inline) : String :=
  xs.foldl (fun acc i => acc ++ match i with | .str s => s | .space => " ") ""

/-- Closed sum of the metadata node kinds read by this core; the
constructor determines the kind tag of the wire format. -/
inductive MetaValue where
  | metaBool (b : Bool)
  | metaInlines (xs : List Inline)
  | metaList (xs : List MetaValue)
  | metaMap (fields : List (String × MetaValue))
deriving Repr

/-- Kind tag of a metadata node, the t component of the wire format. -/
def tagOf : MetaValue → String
  | .metaBool _ => "MetaBool"
  | .metaInlines _ => "MetaInlines"
  | .metaList _ => "MetaList"
  | .metaMap _ => "MetaMap"

/-- Modelled from the spec: get_type of the missing metadata helper
module returns the kind tag of the node stored under a key. -/
def get_type (fields : List (String × MetaValue)) (key : String) : Except String String :=
  match alookup fields key with
  | none => .error ("PanzerKeyError: " ++ key)
  | some v => .ok (tagOf v)

/-- Modelled from the spec: get_content of the missing metadata helper
module returns the node stored under a key after checking that its
kind tag equals the expected one; a missing key raises a key error and
a wrong tag a type error. -/
def get_content (fields : List (String × MetaValue)) (key expected : String) :
    Except String MetaValue :=
  match alookup fields key with
  | none => .error ("PanzerKeyError: " ++ key)
  | some v => if tagOf v = expected then .ok v else .error ("PanzerTypeError: " ++ key)

/-- Embedding of shlex.split as used on metadata argument strings,
restricted to inputs without quoting or escape characters: split on
spaces and drop empty tokens. -/
def shlex_split (s : String) : List String :=
  (s.splitOn " ").filter (fun t => decide (t ≠ ""))

/-! ## Argument decoder (panzer.py, parse_args_metalist) -/

/-- Embedding of parse_args_metalist: walk the args metadata list in
order, emitting a long-option token per valid single-key map element
and one error log per invalid element.  Returns the argument tokens
and the error logs, each in encounter order. -/
def parse_args_metalist : List MetaValue → List String × List String
  | [] => ([], [])
  | item :: rest =>
    let r := parse_args_metalist rest
    match item with
    | .metaMap [(k, .metaBool _)] => (("--" ++ k) :: r.1, r.2)
    | .metaMap [(k, .metaInlines xs)] =>
        (("--" ++ k ++ "=\"" ++ stringify xs ++ "\"") :: r.1, r.2)
    | .metaMap [(k, v)] =>
        (r.1, ("arguments of type \"" ++ tagOf v ++ "\" notsupported---\"" ++ k ++ "\" ignored") :: r.2)
    | .metaMap _ =>
        (r.1, "\"args\" list should have exactly one field per item" :: r.2)
    | _ =>
        (r.1, "\"args\" list should have fields of type \"MetaMap\"" :: r.2)

/-- Per-element decoding rule written from the words of the spec, to be
compared with parse_args_metalist: a single-key map with a Bool value
gives a bare long option, one with an Inlines value gives a long
option with a quoted stringified value, anything else is one error. -/
def decode_item_spec : MetaValue → Except String String
  | .metaMap [(k, .metaBool _)] => .ok ("--" ++ k)
  | .metaMap [(k, .metaInlines xs)] => .ok ("--" ++ k ++ "=\"" ++ stringify xs ++ "\"")
  | .metaMap [(k, v)] =>
      .error ("arguments of type \"" ++ tagOf v ++ "\" notsupported---\"" ++ k ++ "\" ignored")
  | .metaMap _ => .error "\"args\" list should have exactly one field per item"
  | _ => .error "\"args\" list should have fields of type \"MetaMap\""

/-- Whether a metadata node is a map with exactly one key. -/
def isSingleMap : MetaValue → Bool
  | .metaMap [_] => true
  | _ => false

/-! ## Command resolvers -/

/-- Loop of the path resolvers: return the first candidate that exists
on the filesystem, else the fallback. -/
def first_existing (fs : String → Bool) : List String → String → String
  | [], fallback => fallback
  | p :: ps, fallback => if fs p then p else first_existing fs ps fallback

/-- Embedding of resolve_path of panzer.py: candidate location list for
a command name of a given stage; the second and third candidates live
under a literal panzer directory and the support directory is read
from the support key of the options. -/
def resolve_path (fs : String → Bool) (filename field : String) (options : Options) : String :=
  let basename := (splitext filename).1
  let paths : List String :=
    [filename,
     joinPath (joinPath "panzer" field) filename,
     joinPath (joinPath (joinPath "panzer" field) basename) filename,
     joinPath (joinPath options.panzer.support field) filename,
     joinPath (joinPath (joinPath options.panzer.support field) basename) filename]
  first_existing fs paths filename

/-- Candidate location list probed by resolve_path of util.py, in probe
order. -/
def candidate_paths (filename kind support : String) : List String :=
  let basename := (splitext filename).1
  [filename,
   joinPath kind filename,
   joinPath (joinPath kind basename) filename,
   joinPath (joinPath support kind) filename,
   joinPath (joinPath (joinPath support kind) basename) filename]

/-- Embedding of resolve_path of util.py: probe the five candidate
locations in order and return the first that exists, else the original
name; the support argument is the panzer_support option value read by
that module. -/
def resolve_path_util (fs : String → Bool) (filename kind support : String) : String :=
  first_existing fs (candidate_paths filename kind support) filename

/-! ## Run lists (panzer.py) -/

/-- The per-stage run lists, one ordered command list per additive
field. -/
structure RunLists where
  preflight : List (List String)
  filter : List (List String)
  postprocess : List (List String)
  postflight : List (List String)
  cleanup : List (List String)
deriving DecidableEq, Repr

/-- Embedding of default_run_lists. -/
def default_run_lists : RunLists :=
  { preflight := [], filter := [], postprocess := [], postflight := [], cleanup := [] }

/-- Field access of the run-lists dict by stage name. -/
def RunLists.get (rl : RunLists) (kind : String) : List (List String) :=
  if kind = "preflight" then rl.preflight
  else if kind = "filter" then rl.filter
  else if kind = "postprocess" then rl.postprocess
  else if kind = "postflight" then rl.postflight
  else if kind = "cleanup" then rl.cleanup
  else []

/-- Whether the document metadata contains a field, the membership test
of build_run_lists. -/
def contains_field (metadata : List (String × MetaValue)) (field : String) : Bool :=
  (alookup metadata field).isSome

/-- Embedding of build_run_list of panzer.py: decode the metadata list
stored under the given field into a run list.  A missing field or a
wrong outer kind is caught and yields the empty list; a malformed item
(one whose content has no run key of kind MetaInlines) raises, which
propagates out of the builder. -/
def build_run_list (fs : String → Bool) (metadata : List (String × MetaValue))
    (field : String) (options : Options) : Except String (List (List String)) :=
  match get_content metadata field "MetaList" with
  | .error _ => .ok []
  | .ok node =>
    let items := match node with | .metaList xs => xs | _ => []
    items.foldlM (fun run_list item => do
      let item_content := match item with | .metaMap f => f | _ => []
      let command_raw ← get_content item_content "run" "MetaInlines"
      let command_str := stringify (match command_raw with | .metaInlines xs => xs | _ => [])
      let command := [resolve_path fs command_str field options]
      let args ←
        if (alookup item_content "args").isSome then
          match get_type item_content "args" with
          | .ok "MetaInlines" => do
            let a ← get_content item_content "args" "MetaInlines"
            pure (shlex_split (stringify (match a with | .metaInlines xs => xs | _ => [])))
          | .ok "MetaList" => do
            let a ← get_content item_content "args" "MetaList"
            pure (parse_args_metalist (match a with | .metaList xs => xs | _ => [])).1
          | _ =>
            pure []
        else
          pure []
      pure (run_list ++ [command ++ args])) []

/-- List insertion at position one, the writer insertion applied to
every filter command (insertion into an empty list lands at the only
position, as the list insert method does). -/
def insert_writer (write : String) : List String → List String
  | [] => [write]
  | h :: t => h :: write :: t

/-- One iteration of the field loop of build_run_lists: seed the filter
stage from the command-line filter list when one was given, extend with
the metadata contribution when the field is present, clear a non-empty
postprocess list under pdf output, and insert the writer name into
every filter command. -/
def process_field (fs : String → Bool) (metadata : List (String × MetaValue))
    (options : Options) (field : String) (current : List (List String)) :
    Except String (List (List String)) :=
  let run_list :=
    if field = "filter" ∧ options.pandoc.filter ≠ [] then options.pandoc.filter else current
  let step : Except String (List (List String)) :=
    if contains_field metadata field then
      match build_run_list fs metadata field options with
      | .error e => .error e
      | .ok m => .ok (run_list ++ m)
    else .ok run_list
  match step with
  | .error e => .error e
  | .ok run_list2 =>
    if options.pandoc.pdf_output = true ∧ field = "postprocess" ∧ run_list2 ≠ [] then
      .ok []
    else if field = "filter" then
      .ok (run_list2.map (insert_writer options.pandoc.write))
    else
      .ok run_list2

/-- Embedding of build_run_lists: process the five additive fields in
their fixed order, threading any raised error out of the builder. -/
def build_run_lists (fs : String → Bool) (metadata : List (String × MetaValue))
    (run_lists : RunLists) (options : Options) : Except String RunLists :=
  match process_field fs metadata options "preflight" run_lists.preflight with
  | .error e => .error e
  | .ok pre =>
  match process_field fs metadata options "filter" run_lists.filter with
  | .error e => .error e
  | .ok fil =>
  match process_field fs metadata options "postprocess" run_lists.postprocess with
  | .error e => .error e
  | .ok post =>
  match process_field fs metadata options "postflight" run_lists.postflight with
  | .error e => .error e
  | .ok postf =>
  match process_field fs metadata options "cleanup" run_lists.cleanup with
  | .error e => .error e
  | .ok clean => .ok ⟨pre, fil, post, postf, clean⟩

/-! ## Script executor (panzer.py, run_scripts) -/

/-- Result of one attempt at spawning and feeding a child process: the
process ran and produced standard-error text, or the spawn itself
failed (the operating-system error case, in which no standard-error
text was collected), or some other fault occurred while communicating
with the child. -/
inductive Outcome where
  | ok (stderrTxt : String)
  | spawnFail (msg : String)
  | commFail (msg : String)
deriving DecidableEq, Repr

/-- Observable events of a build: command attempts, log records, the
standard-error report line, the one cleanup-stage call of the final
step, and the temporary-file removal. -/
inductive Event where
  | attempt (name : String)
  | logError (src msg : String)
  | logWarning (msg : String)
  | logStderr (src text : String)
  | logCritical (msg : String)
  | printStderr (msg : String)
  | createSupportDir (path : String)
  | setEnv (value : String)
  | cleanupCall
  | removeTemp (path : String)
  | other (tag : String)
deriving DecidableEq, Repr

/-- Modelled from the spec: log_stderr of the missing logging module
logs collected standard-error text attributed to the command name,
and logs nothing when the text is empty. -/
def stderr_events (name txt : String) : List Event :=
  if txt = "" then [] else [Event.logStderr name txt]

/-- Command loop of run_scripts: attempt each command in order; an
operating-system spawn failure logs an error and continues; any other
communication fault logs an error and continues under force_run and
otherwise propagates, leaving the remaining commands unrun.  The
behaviour argument gives the outcome the operating system produces for
a command.  Returns the events in order and the propagated fault, if
any. -/
def run_command_list (behavior : List String → Outcome) :
    List (List String) → Bool → List Event × Option String
  | [], _ => ([], none)
  | c :: rest, force_run =>
    let name := path_basename (c.headD "")
    match behavior c with
    | .ok stderrTxt =>
      let r := run_command_list behavior rest force_run
      (Event.attempt name :: stderr_events name stderrTxt ++ r.1, r.2)
    | .spawnFail m =>
      let r := run_command_list behavior rest force_run
      (Event.attempt name :: Event.logError name m :: r.1, r.2)
    | .commFail m =>
      if force_run then
        let r := run_command_list behavior rest force_run
        (Event.attempt name :: Event.logError name m :: r.1, r.2)
      else
        ([Event.attempt name], some m)

/-- Embedding of run_scripts: return at once when the stage has no
commands, else run the command loop. -/
def run_scripts (behavior : List String → Outcome) (kind : String)
    (run_lists : RunLists) (force_run : Bool) : List Event × Option String :=
  let cmds := run_lists.get kind
  if cmds = [] then ([], none) else run_command_list behavior cmds force_run

/-! ## Setup checks (util.py) -/

/-- Dot-splitting of a version string into its components. -/
def split_dots : List Char → List (List Char)
  | [] => [[]]
  | c :: rest =>
    match split_dots rest with
    | [] => [[]]
    | g :: gs => if c = '.' then [] :: g :: gs else (c :: g) :: gs

/-- Decimal reading of one version component, the int conversion
applied by versiontuple (the sources only apply it to numeric dotted
versions). -/
def digits_to_nat (l : List Char) : Nat :=
  l.foldl (fun acc c => acc * 10 + (c.toNat - 48)) 0

/-- Embedding of versiontuple: the dot-separated numeric components of
a version string. -/
def versiontuple (s : String) : List Nat :=
  (split_dots s.toList).map digits_to_nat

/-- Lexicographic comparison of version tuples, the tuple less-than of
the version check. -/
def tupleLt : List Nat → List Nat → Bool
  | [], [] => false
  | [], _ :: _ => true
  | _ :: _, [] => false
  | a :: as', b :: bs => if a < b then true else if b < a then false else tupleLt as' bs

/-- Embedding of check_pandoc_exists: a setup error when the wrapped
tool is missing, or when its reported version (the version token of
its first output line) is below the required minimum. -/
def check_pandoc_exists (pandocFound : Bool) (pandocVersion : String) : Except String Unit :=
  if pandocFound = false then .error "pandoc not found"
  else if tupleLt (versiontuple pandocVersion) (versiontuple REQUIRE_PANDOC_ATLEAST) then
    .error ("pandoc " ++ REQUIRE_PANDOC_ATLEAST ++ " or greater required---found pandoc version "
            ++ pandocVersion)
  else .ok ()

/-- Embedding of check_support_directory of util.py: a non-default
support directory that does not exist is logged and replaced by the
default; a missing default directory is then created after a prompt;
finally the shared-directory environment variable is set.  The
function returns the support directory now in effect and the events,
and never raises a setup error. -/
def check_support_directory (fs : String → Bool) (support : String) : String × List Event :=
  let step1 : String × List Event :=
    if support ≠ DEFAULT_SUPPORT_DIR ∧ fs support = false then
      (DEFAULT_SUPPORT_DIR,
       [Event.logError "panzer" ("panzer support directory \"" ++ support ++ "\" not found"),
        Event.logWarning ("using default panzer support directory: " ++ DEFAULT_SUPPORT_DIR)])
    else (support, [])
  let step2 : List Event :=
    if fs DEFAULT_SUPPORT_DIR = false then
      [Event.logWarning ("default panzer support directory \"" ++ DEFAULT_SUPPORT_DIR ++ "\" not found"),
       Event.logWarning ("create blank support directory \"" ++ DEFAULT_SUPPORT_DIR ++ "\"?"),
       Event.createSupportDir DEFAULT_SUPPORT_DIR]
    else []
  (step1.1, step1.2 ++ step2 ++ [Event.setEnv (joinPath step1.1 "shared")])

/-! ## The main function (panzer.py, main) -/

/-- Exceptions the body of main can raise after setup has succeeded:
the wrapped-tool invocation fault, one of the structural metadata
faults, or an exception no handler of main catches. -/
inductive BodyExn where
  | calledProcess
  | metaError (msg : String)
  | uncaught (msg : String)
deriving DecidableEq, Repr

/-- Abstract run of the try body of main after the setup checks: the
events the body produced, the exception it raised if any, the value of
the run-lists variable when the final step runs, and the recorded
stdin temporary-file path at that point. -/
structure BuildSim where
  bodyEvents : List Event
  bodyExn : Option BodyExn
  runListsFinal : RunLists
  temp : String

/-- Embedding of main: the pandoc check runs first; a setup error is
printed to the error stream and exits with code 1, with the run lists
still the empty defaults and no temporary file yet.  Otherwise the
support-directory check runs, then the abstract body; handled
exceptions log a critical record and exit 1, an unhandled exception
ends the process with a nonzero status.  The final step always runs
the cleanup stage with force_run set and then removes the recorded
temporary file when one exists.  Returns the events in order and the
exit code. -/
def mainSim (pandocFound : Bool) (pandocVersion : String) (fs : String → Bool)
    (support : String) (behavior : List String → Outcome) (body : BuildSim) :
    List Event × Option Nat :=
  match check_pandoc_exists pandocFound pandocVersion with
  | .error msg =>
    let fin := Event.cleanupCall :: (run_scripts behavior "cleanup" default_run_lists true).1
    (Event.printStderr msg :: fin, some 1)
  | .ok _ =>
    let supEvs := (check_support_directory fs support).2
    let fin := Event.cleanupCall :: (run_scripts behavior "cleanup" body.runListsFinal true).1
                ++ (if body.temp = "" then [] else [Event.removeTemp body.temp])
    match body.bodyExn with
    | none => (supEvs ++ body.bodyEvents ++ fin, some 0)
    | some .calledProcess =>
      (supEvs ++ body.bodyEvents
        ++ [Event.logCritical "cannot continue because of fatal error"] ++ fin, some 1)
    | some (.metaError m) =>
      (supEvs ++ body.bodyEvents ++ [Event.logCritical m] ++ fin, some 1)
    | some (.uncaught _) =>
      (supEvs ++ body.bodyEvents ++ fin, some 1)

/-- Names of the commands attempted in an event list. -/
def attempts (evs : List Event) : List String :=
  evs.filterMap (fun e => match e with | .attempt n => some n | _ => none)

/-- Whether an event is a temporary-file removal. -/
def isRemoveEv : Event → Bool
  | .removeTemp _ => true
  | _ => false

/-- The value of a successful decoding step, if any. -/
def okPart : Except String String → Option String
  | .ok a => some a
  | .error _ => none

/-- The error of a failed decoding step, if any. -/
def errPart : Except String String → Option String
  | .ok _ => none
  | .error e => some e

/-- Whether a setup check succeeded. -/
def isOkE : Except String Unit → Bool
  | .ok _ => true
  | .error _ => false

/-! ## Helper lemmas -/

theorem first_existing_eq_find (fs : String → Bool) (l : List String) (fb : String) :
    first_existing fs l fb = ((l.find? fs).getD fb) := by
  induction l with
  | nil => rfl
  | cons p ps ih =>
    by_cases h : fs p = true
    · simp [first_existing, List.find?, h]
    · simp only [Bool.not_eq_true] at h
      simp [first_existing, List.find?, h, ih]

theorem alookup_mem {β : Type} (l : List (String × β)) (k : String) (v : β)
    (h : alookup l k = some v) : (k, v) ∈ l := by
  induction l with
  | nil => simp [alookup] at h
  | cons hd tl ih =>
    by_cases hk : hd.1 = k
    · obtain ⟨k1, v1⟩ := hd
      simp only [alookup] at h
      rw [if_pos hk] at h
      cases h
      subst hk
      exact List.mem_cons_self _ _
    · obtain ⟨k1, v1⟩ := hd
      simp only [alookup] at h
      rw [if_neg hk] at h
      exact List.mem_cons_of_mem _ (ih h)

theorem build_run_list_not_contains (fs : String → Bool) (metadata : List (String × MetaValue))
    (field : String) (options : Options) (h : contains_field metadata field = false) :
    build_run_list fs metadata field options = .ok [] := by
  unfold contains_field at h
  unfold build_run_list get_content
  cases hl : alookup metadata field with
  | none => rfl
  | some v => rw [hl] at h; simp at h

/-! ## Claims -/

/-- Claim C4: the util.py resolve_path probes exactly the five claimed
candidate locations in their fixed order, returns the first candidate
that exists on the filesystem, and returns the original name unchanged
when none exist; as a total function of the filesystem predicate it
never raises and is deterministic for an unchanged filesystem. -/
theorem claim_C4 (fs : String → Bool) (filename kind support : String) :
    resolve_path_util fs filename kind support
        = (((candidate_paths filename kind support).find? fs).getD filename) ∧
    candidate_paths filename kind support
        = [filename,
           joinPath kind filename,
           joinPath (joinPath kind (splitext filename).1) filename,
           joinPath (joinPath support kind) filename,
           joinPath (joinPath (joinPath support kind) (splitext filename).1) filename] ∧
    ((∀ p ∈ candidate_paths filename kind support, fs p = false) →
        resolve_path_util fs filename kind support = filename) := by
  refine ⟨first_existing_eq_find fs _ filename, rfl, ?_⟩
  intro h
  rw [resolve_path_util, first_existing_eq_find]
  have : (candidate_paths filename kind support).find? fs = none := by
    rw [List.find?_eq_none]
    intro x hx
    simp [h x hx]
  rw [this]
  rfl

/-- Witness for claim C4 on a filesystem where no candidate exists. -/
theorem claim_C4_witness :
    resolve_path_util (fun _ => false) "f.py" "filter" "~/.panzer" = "f.py" :=
  (claim_C4 (fun _ => false) "f.py" "filter" "~/.panzer").2.2 (fun _ _ => rfl)

/-- Claim C10: a falsy parsed command-line value, for the wrapper
options as for the wrapped-tool options, leaves the stored default in
place; in particular a parsed verbosity of 0 leaves the default
verbosity 1, so verbosity 0 cannot be selected from the command
line. -/
theorem claim_C10 :
    (∀ (o : PanzerOpts) (pz : PanzerParsed),
       truthyStr pz.panzer_support = false → pz.debug = false → truthyInt pz.verbose = false →
       update_panzer_options o pz = o) ∧
    (∀ (o : PandocOpts) (pd : PandocParsed),
       truthyStr pd.read = false → truthyStr pd.write = false → truthyStr pd.output = false →
       truthyStr pd.template = false → truthyFilterList pd.filter = false →
       update_pandoc_options o pd = o) ∧
    (∀ pz pd u B t d, pz.verbose = some 0 →
       (parse_cli_options default_options pz pd u B t d).1.panzer.verbose = 1) ∧
    (∀ pz pd u B t d, (parse_cli_options default_options pz pd u B t d).1.panzer.verbose ≠ 0) := by
  refine ⟨?_, ?_, ?_, ?_⟩
  · intro o pz h1 h2 h3
    simp [update_panzer_options, h1, h2, h3]
  · intro o pd h1 h2 h3 h4 h5
    simp [update_pandoc_options, h1, h2, h3, h4, h5]
  · intro pz pd u B t d hv
    simp [parse_cli_options, update_panzer_options, hv, truthyInt, default_options]
  · intro pz pd u B t d
    show (if truthyInt pz.verbose then pz.verbose.getD 0 else default_options.panzer.verbose) ≠ 0
    cases hv : pz.verbose with
    | none => simp [truthyInt, default_options]
    | some n =>
      by_cases hn : n = 0
      · simp [truthyInt, hn, default_options]
      · simp [truthyInt, hn]

/-- Witness for claim C10: a parsed verbosity of 0 leaves verbosity 1. -/
theorem claim_C10_witness :
    (parse_cli_options default_options ⟨none, false, some 0⟩ ⟨none, none, none, none, none⟩
        [] [] "" []).1.panzer.verbose = 1 :=
  claim_C10.2.2.1 ⟨none, false, some 0⟩ ⟨none, none, none, none, none⟩ [] [] "" [] rfl

/-- Claim C6: writer resolution of parse_cli_options: an explicit
nonempty write flag wins outright; with none, output - gives the html
default; an output named doc followed by a table extension gives the
table format, for every pair of the static table; an extension absent
from the table gives the html default; and the resolved writer is
nonempty in every case.  The final conjunct ties the step function to
the full option resolution. -/
theorem claim_C6 :
    (∀ o : PandocOpts, o.write ≠ "" → (detect_writer o).write = o.write) ∧
    (∀ o : PandocOpts, o.write = "" → o.output = "-" → (detect_writer o).write = "html") ∧
    (∀ p ∈ pandoc_writer_mapping, ∀ o : PandocOpts, o.write = "" → o.output = "doc" ++ p.1 →
        (detect_writer o).write = p.2) ∧
    (∀ o : PandocOpts, o.write = "" → o.output ≠ "-" →
        alookup pandoc_writer_mapping (lowerStr (splitext o.output).2) = none →
        (detect_writer o).write = "html") ∧
    (∀ o : PandocOpts, (detect_writer o).write ≠ "") ∧
    (∀ pz pd u B t d, (parse_cli_options default_options pz pd u B t d).1.pandoc.write
        = (detect_writer (set_pdf_output (update_pandoc_options default_options.pandoc pd))).write) := by
  have hvals : ∀ p ∈ pandoc_writer_mapping, p.2 ≠ "" := by decide
  have hkey : ∀ p ∈ pandoc_writer_mapping,
      ("doc" ++ p.1 ≠ "-") ∧
      alookup pandoc_writer_mapping (lowerStr (splitext ("doc" ++ p.1)).2) = some p.2 := by decide
  refine ⟨?_, ?_, ?_, ?_, ?_, ?_⟩
  · intro o hw
    simp [detect_writer, hw]
  · intro o hw ho
    simp [detect_writer, hw, ho]
  · intro p hp o hw ho
    have hk := hkey p hp
    rw [detect_writer, if_neg (by simp [hw]), ho, if_neg hk.1, hk.2]
  · intro o hw ho hl
    rw [detect_writer, if_neg (by simp [hw]), if_neg ho, hl]
  · intro o
    by_cases hw : o.write = ""
    · by_cases ho : o.output = "-"
      · simp [detect_writer, hw, ho]
      · rw [detect_writer, if_neg (by simp [hw]), if_neg ho]
        cases hl : alookup pandoc_writer_mapping (lowerStr (splitext o.output).2) with
        | none => simp
        | some w =>
          have := hvals _ (alookup_mem _ _ _ hl)
          simpa using this
    · simp [detect_writer, hw]
  · intro pz pd u B t d
    rfl

/-- Witness for claim C6 at the table entry for the .tex extension. -/
theorem claim_C6_witness :
    (detect_writer { default_options.pandoc with output := "doc.tex" }).write = "latex" :=
  claim_C6.2.2.1 (".tex", "latex") (by decide)
    { default_options.pandoc with output := "doc.tex" } rfl rfl

theorem attempts_append (a b : List Event) : attempts (a ++ b) = attempts a ++ attempts b :=
  List.filterMap_append a b _

theorem attempts_stderr (n s : String) : attempts (stderr_events n s) = [] := by
  unfold stderr_events
  split <;> rfl

theorem attempts_ok_cons (n s : String) (r : List Event) :
    attempts (Event.attempt n :: stderr_events n s ++ r) = n :: attempts r := by
  unfold stderr_events
  by_cases hs : s = ""
  · rw [if_pos hs]; rfl
  · rw [if_neg hs]; rfl

theorem attempts_err_cons (n m : String) (r : List Event) :
    attempts (Event.attempt n :: Event.logError n m :: r) = n :: attempts r := rfl

theorem run_command_list_no_commFail (behavior : List String → Outcome)
    (cmds : List (List String)) (h : ∀ c ∈ cmds, ∀ m, behavior c ≠ .commFail m) :
    (run_command_list behavior cmds false).2 = none ∧
    attempts (run_command_list behavior cmds false).1
      = cmds.map (fun c => path_basename (c.headD "")) := by
  induction cmds with
  | nil => exact ⟨rfl, rfl⟩
  | cons c rest ih =>
    have hrest := ih (fun x hx => h x (List.mem_cons_of_mem _ hx))
    cases hb : behavior c with
    | ok s =>
      have e1 : run_command_list behavior (c :: rest) false
          = (Event.attempt (path_basename (c.headD ""))
               :: stderr_events (path_basename (c.headD "")) s
               ++ (run_command_list behavior rest false).1,
             (run_command_list behavior rest false).2) := by
        simp only [run_command_list, hb]
      rw [e1]
      exact ⟨hrest.1, by rw [attempts_ok_cons, hrest.2]; rfl⟩
    | spawnFail m =>
      have e1 : run_command_list behavior (c :: rest) false
          = (Event.attempt (path_basename (c.headD ""))
               :: Event.logError (path_basename (c.headD "")) m
               :: (run_command_list behavior rest false).1,
             (run_command_list behavior rest false).2) := by
        simp only [run_command_list, hb]
      rw [e1]
      exact ⟨hrest.1, by rw [attempts_err_cons, hrest.2]; rfl⟩
    | commFail m => exact absurd hb (h c (List.mem_cons_self _ _) m)

theorem run_command_list_append_no_commFail (behavior : List String → Outcome)
    (l1 l2 : List (List String)) (h : ∀ c ∈ l1, ∀ m, behavior c ≠ .commFail m) :
    run_command_list behavior (l1 ++ l2) false
      = ((run_command_list behavior l1 false).1 ++ (run_command_list behavior l2 false).1,
         (run_command_list behavior l2 false).2) := by
  induction l1 with
  | nil => simp [run_command_list]
  | cons c rest ih =>
    have hrest := ih (fun x hx => h x (List.mem_cons_of_mem _ hx))
    rw [List.cons_append]
    cases hb : behavior c with
    | ok s =>
      have e1 : run_command_list behavior (c :: (rest ++ l2)) false
          = (Event.attempt (path_basename (c.headD ""))
               :: stderr_events (path_basename (c.headD "")) s
               ++ (run_command_list behavior (rest ++ l2) false).1,
             (run_command_list behavior (rest ++ l2) false).2) := by
        simp only [run_command_list, hb]
      have e2 : run_command_list behavior (c :: rest) false
          = (Event.attempt (path_basename (c.headD ""))
               :: stderr_events (path_basename (c.headD "")) s
               ++ (run_command_list behavior rest false).1,
             (run_command_list behavior rest false).2) := by
        simp only [run_command_list, hb]
      rw [e1, hrest, e2]
      simp [List.append_assoc]
    | spawnFail m =>
      have e1 : run_command_list behavior (c :: (rest ++ l2)) false
          = (Event.attempt (path_basename (c.headD ""))
               :: Event.logError (path_basename (c.headD "")) m
               :: (run_command_list behavior (rest ++ l2) false).1,
             (run_command_list behavior (rest ++ l2) false).2) := by
        simp only [run_command_list, hb]
      have e2 : run_command_list behavior (c :: rest) false
          = (Event.attempt (path_basename (c.headD ""))
               :: Event.logError (path_basename (c.headD "")) m
               :: (run_command_list behavior rest false).1,
             (run_command_list behavior rest false).2) := by
        simp only [run_command_list, hb]
      rw [e1, hrest, e2]
      simp [List.append_assoc]
    | commFail m => exact absurd hb (h c (List.mem_cons_self _ _) m)

theorem run_command_list_force (behavior : List String → Outcome)
    (cmds : List (List String)) :
    (run_command_list behavior cmds true).2 = none ∧
    attempts (run_command_list behavior cmds true).1
      = cmds.map (fun c => path_basename (c.headD "")) := by
  induction cmds with
  | nil => exact ⟨rfl, rfl⟩
  | cons c rest ih =>
    cases hb : behavior c with
    | ok s =>
      have e1 : run_command_list behavior (c :: rest) true
          = (Event.attempt (path_basename (c.headD ""))
               :: stderr_events (path_basename (c.headD "")) s
               ++ (run_command_list behavior rest true).1,
             (run_command_list behavior rest true).2) := by
        simp only [run_command_list, hb]
      rw [e1]
      exact ⟨ih.1, by rw [attempts_ok_cons, ih.2]; rfl⟩
    | spawnFail m =>
      have e1 : run_command_list behavior (c :: rest) true
          = (Event.attempt (path_basename (c.headD ""))
               :: Event.logError (path_basename (c.headD "")) m
               :: (run_command_list behavior rest true).1,
             (run_command_list behavior rest true).2) := by
        simp only [run_command_list, hb]
      rw [e1]
      exact ⟨ih.1, by rw [attempts_err_cons, ih.2]; rfl⟩
    | commFail m =>
      have e1 : run_command_list behavior (c :: rest) true
          = (Event.attempt (path_basename (c.headD ""))
               :: Event.logError (path_basename (c.headD "")) m
               :: (run_command_list behavior rest true).1,
             (run_command_list behavior rest true).2) := by
        simp [run_command_list, hb]
      rw [e1]
      exact ⟨ih.1, by rw [attempts_err_cons, ih.2]; rfl⟩

/-- Claim C3: in the script executor a spawn failure logs an error and
the stage continues with the next command; with force_run every
command of the list is attempted and no fault propagates, a
communication fault included; without force_run a communication fault
stops the stage at the faulting command, the preceding commands having
been attempted, the following commands left unrun, and the fault
propagating to the caller. -/
theorem claim_C3 :
    (∀ (behavior : List String → Outcome) (c : List String) rest force m,
       behavior c = .spawnFail m →
       run_command_list behavior (c :: rest) force
         = (Event.attempt (path_basename (c.headD ""))
              :: Event.logError (path_basename (c.headD "")) m
              :: (run_command_list behavior rest force).1,
            (run_command_list behavior rest force).2)) ∧
    (∀ (behavior : List String → Outcome) cmds,
       (∀ c ∈ cmds, ∀ m, behavior c ≠ .commFail m) →
       (run_command_list behavior cmds false).2 = none ∧
       attempts (run_command_list behavior cmds false).1
         = cmds.map (fun c => path_basename (c.headD ""))) ∧
    (∀ (behavior : List String → Outcome) l1 (c : List String) l2 m,
       (∀ x ∈ l1, ∀ m2, behavior x ≠ .commFail m2) → behavior c = .commFail m →
       run_command_list behavior (l1 ++ c :: l2) false
         = ((run_command_list behavior l1 false).1
              ++ [Event.attempt (path_basename (c.headD ""))], some m)) ∧
    (∀ (behavior : List String → Outcome) cmds,
       (run_command_list behavior cmds true).2 = none ∧
       attempts (run_command_list behavior cmds true).1
         = cmds.map (fun c => path_basename (c.headD ""))) ∧
    (∀ (behavior : List String → Outcome) (c : List String) rest m,
       behavior c = .commFail m →
       run_command_list behavior (c :: rest) true
         = (Event.attempt (path_basename (c.headD ""))
              :: Event.logError (path_basename (c.headD "")) m
              :: (run_command_list behavior rest true).1,
            (run_command_list behavior rest true).2)) := by
  refine ⟨?_, run_command_list_no_commFail, ?_, run_command_list_force, ?_⟩
  · intro behavior c rest force m hb
    simp [run_command_list, hb]
  · intro behavior l1 c l2 m h1 hb
    rw [run_command_list_append_no_commFail behavior l1 (c :: l2) h1]
    simp [run_command_list, hb]
  · intro behavior c rest m hb
    simp [run_command_list, hb]

/-- Witness for claim C3: a stage list with an unresolvable first
command and a faulting second command, run without force_run, attempts
the first, logs its spawn error, attempts the second and propagates
its fault. -/
theorem claim_C3_witness :
    run_command_list
        (fun c => if c = ["a.py"] then Outcome.spawnFail "not found"
                  else Outcome.commFail "broken pipe")
        [["a.py"], ["b.py"]] false
      = ([Event.attempt "a.py", Event.logError "a.py" "not found", Event.attempt "b.py"],
         some "broken pipe") := by
  have h := claim_C3.2.2.1
      (fun c => if c = ["a.py"] then Outcome.spawnFail "not found"
                else Outcome.commFail "broken pipe")
      [["a.py"]] ["b.py"] [] "broken pipe"
      (by
        intro x hx m2
        have hx' : x = ["a.py"] := by simpa using hx
        subst hx'
        simp)
      (by decide)
  exact h

theorem parse_args_metalist_cons (i : MetaValue) (rest : List MetaValue) :
    parse_args_metalist (i :: rest)
      = match decode_item_spec i with
        | .ok a => (a :: (parse_args_metalist rest).1, (parse_args_metalist rest).2)
        | .error e => ((parse_args_metalist rest).1, e :: (parse_args_metalist rest).2) := by
  cases i with
  | metaBool b => rfl
  | metaInlines xs => rfl
  | metaList xs => rfl
  | metaMap fields =>
    rcases fields with _ | ⟨⟨k, v⟩, _ | ⟨⟨k2, v2⟩, tl⟩⟩
    · rfl
    · cases v <;> rfl
    · cases v <;> rfl

theorem decode_item_spec_not_single (i : MetaValue) (h : isSingleMap i = false) :
    ∃ e, decode_item_spec i = .error e := by
  cases i with
  | metaBool b => exact ⟨_, rfl⟩
  | metaInlines xs => exact ⟨_, rfl⟩
  | metaList xs => exact ⟨_, rfl⟩
  | metaMap fields =>
    rcases fields with _ | ⟨⟨k, v⟩, _ | ⟨⟨k2, v2⟩, tl⟩⟩
    · exact ⟨_, rfl⟩
    · simp [isSingleMap] at h
    · cases v <;> exact ⟨_, rfl⟩

/-- Claim C7: the argument decoder processes the metadata args list in
order and never aborts it: the emitted argument tokens are exactly the
per-element successes in order, the error logs are exactly one per
invalid element in order, a single-key Bool entry emits the bare long
option whatever the boolean value, and an element that is not a
single-key map adds exactly one error and leaves the remaining decoded
arguments unchanged. -/
theorem claim_C7 (items : List MetaValue) :
    ((parse_args_metalist items).1 = items.filterMap (fun i => okPart (decode_item_spec i))) ∧
    ((parse_args_metalist items).2 = items.filterMap (fun i => errPart (decode_item_spec i))) ∧
    (∀ k b, decode_item_spec (.metaMap [(k, .metaBool b)]) = .ok ("--" ++ k)) ∧
    (∀ i, isSingleMap i = false → ∃ e, parse_args_metalist (i :: items)
        = ((parse_args_metalist items).1, e :: (parse_args_metalist items).2)) := by
  refine ⟨?_, ?_, fun k b => rfl, ?_⟩
  · induction items with
    | nil => rfl
    | cons i rest ih =>
      rw [parse_args_metalist_cons, List.filterMap_cons]
      cases hd : decode_item_spec i with
      | ok a => simp [okPart, ih]
      | error e => simp [okPart, ih]
  · induction items with
    | nil => rfl
    | cons i rest ih =>
      rw [parse_args_metalist_cons, List.filterMap_cons]
      cases hd : decode_item_spec i with
      | ok a => simp [errPart, ih]
      | error e => simp [errPart, ih]
  · intro i hi
    obtain ⟨e, he⟩ := decode_item_spec_not_single i hi
    exact ⟨e, by rw [parse_args_metalist_cons, he]⟩

/-- Witness for claim C7: a bare boolean element, which is not a
single-key map, is skipped with one error while the rest decodes. -/
theorem claim_C7_witness :
    ∃ e, parse_args_metalist [MetaValue.metaBool true, MetaValue.metaMap [("verbose", MetaValue.metaBool false)]]
      = (["--verbose"], [e]) :=
  (claim_C7 [MetaValue.metaMap [("verbose", MetaValue.metaBool false)]]).2.2.2
    (MetaValue.metaBool true) rfl

theorem process_field_filter (fs : String → Bool) (metadata : List (String × MetaValue))
    (options : Options) (M : List (List String))
    (hM : build_run_list fs metadata "filter" options = .ok M) :
    process_field fs metadata options "filter" []
      = .ok ((options.pandoc.filter ++ M).map (insert_writer options.pandoc.write)) := by
  have hne : ("filter" : String) ≠ "postprocess" := by decide
  by_cases hc : contains_field metadata "filter" = true
  · by_cases hf : options.pandoc.filter = []
    · simp [process_field, hc, hM, hf, hne]
    · simp [process_field, hc, hM, hf, hne]
  · have hM0 : build_run_list fs metadata "filter" options = .ok [] :=
      build_run_list_not_contains _ _ _ _ (by simpa using hc)
    rw [hM0] at hM
    cases hM
    by_cases hf : options.pandoc.filter = []
    · simp [process_field, hc, hf, hne]
    · simp [process_field, hc, hf, hne]

/-- Claim C1: starting from the default empty run lists, the built
filter run list is the command-line filter list followed by the
metadata filter list, declaration order preserved within each source,
with the resolved writer name inserted at position one of every
command, command-line-seeded commands included. -/
theorem claim_C1 (fs : String → Bool) (metadata : List (String × MetaValue))
    (options : Options) (out : RunLists) (M : List (List String))
    (hok : build_run_lists fs metadata default_run_lists options = .ok out)
    (hM : build_run_list fs metadata "filter" options = .ok M) :
    out.filter = (options.pandoc.filter ++ M).map (insert_writer options.pandoc.write) := by
  unfold build_run_lists at hok
  cases h1 : process_field fs metadata options "preflight" default_run_lists.preflight with
  | error e => rw [h1] at hok; exact Except.noConfusion hok
  | ok pre =>
  rw [h1, show default_run_lists.filter = [] from rfl,
      process_field_filter fs metadata options M hM] at hok
  cases h3 : process_field fs metadata options "postprocess" default_run_lists.postprocess with
  | error e => rw [h3] at hok; exact Except.noConfusion hok
  | ok post =>
  rw [h3] at hok
  cases h4 : process_field fs metadata options "postflight" default_run_lists.postflight with
  | error e => rw [h4] at hok; exact Except.noConfusion hok
  | ok postf =>
  rw [h4] at hok
  cases h5 : process_field fs metadata options "cleanup" default_run_lists.cleanup with
  | error e => rw [h5] at hok; exact Except.noConfusion hok
  | ok clean =>
  rw [h5] at hok
  cases hok
  rfl

/-- Witness for claim C1: one command-line filter and one metadata
filter, on a filesystem where the metadata filter resolves to the
panzer filter directory. -/
theorem claim_C1_witness :
    (RunLists.mk [] [["c.py", "latex"], ["panzer/filter/f.py", "latex"]] [] [] []).filter
      = ([["c.py"]] ++ [["panzer/filter/f.py"]]).map (insert_writer "latex") :=
  claim_C1 (fun p => p = "panzer/filter/f.py")
    [("filter", .metaList [.metaMap [("run", .metaInlines [.str "f.py"])]])]
    { default_options with pandoc :=
        { default_options.pandoc with write := "latex", filter := [["c.py"]] } }
    (RunLists.mk [] [["c.py", "latex"], ["panzer/filter/f.py", "latex"]] [] [] [])
    [["panzer/filter/f.py"]]
    rfl rfl

theorem detect_writer_pdf_output (o : PandocOpts) :
    (detect_writer o).pdf_output = o.pdf_output := by
  unfold detect_writer
  split
  · rfl
  · split
    · rfl
    · split <;> rfl

theorem detect_writer_output (o : PandocOpts) : (detect_writer o).output = o.output := by
  unfold detect_writer
  split
  · rfl
  · split
    · rfl
    · split <;> rfl

theorem set_pdf_output_output (o : PandocOpts) : (set_pdf_output o).output = o.output := by
  unfold set_pdf_output
  split <;> rfl

theorem set_pdf_output_pdf (o : PandocOpts) :
    (set_pdf_output o).pdf_output = true
      ↔ (lowerStr (splitext o.output).2 = ".pdf" ∨ o.pdf_output = true) := by
  unfold set_pdf_output
  split
  · rename_i h
    simp [h]
  · rename_i h
    simp [h]

theorem process_field_postprocess_pdf (fs : String → Bool) (metadata : List (String × MetaValue))
    (options : Options) (current r : List (List String))
    (hpdf : options.pandoc.pdf_output = true)
    (h : process_field fs metadata options "postprocess" current = .ok r) : r = [] := by
  simp only [process_field] at h
  split at h
  · exact Except.noConfusion h
  · split at h
    · cases h
      rfl
    · split at h
      · rename_i hcon
        exact absurd hcon (by decide)
      · rename_i run_list2 heq hneg hneg2
        cases h
        by_contra hr
        exact hneg ⟨hpdf, trivial, hr⟩

/-- Claim C2: after option resolution from the defaults, pdf_output is
true exactly when the lowercased extension of the resolved output path
is .pdf; and for any options with pdf_output set, a successful
build_run_lists leaves the postprocess run list empty. -/
theorem claim_C2 :
    (∀ pz pd u B t d,
       ((parse_cli_options default_options pz pd u B t d).1.pandoc.pdf_output = true
         ↔ lowerStr (splitext (parse_cli_options default_options pz pd u B t d).1.pandoc.output).2
             = ".pdf")) ∧
    (∀ (options : Options) (fs : String → Bool) metadata out,
       options.pandoc.pdf_output = true →
       build_run_lists fs metadata default_run_lists options = .ok out →
       out.postprocess = []) := by
  constructor
  · intro pz pd u B t d
    have h1 : (parse_cli_options default_options pz pd u B t d).1.pandoc.pdf_output
        = (set_pdf_output (update_pandoc_options default_options.pandoc pd)).pdf_output :=
      detect_writer_pdf_output _
    have h2 : (parse_cli_options default_options pz pd u B t d).1.pandoc.output
        = (update_pandoc_options default_options.pandoc pd).output := by
      have h3 := detect_writer_output (set_pdf_output (update_pandoc_options default_options.pandoc pd))
      rw [set_pdf_output_output] at h3
      exact h3
    rw [h1, h2, set_pdf_output_pdf]
    have hf : (update_pandoc_options default_options.pandoc pd).pdf_output = false := by
      simp [update_pandoc_options, default_options]
    simp [hf]
  · intro options fs metadata out hpdf hok
    unfold build_run_lists at hok
    cases h1 : process_field fs metadata options "preflight" default_run_lists.preflight with
    | error e => rw [h1] at hok; exact Except.noConfusion hok
    | ok pre =>
    rw [h1] at hok
    cases h2 : process_field fs metadata options "filter" default_run_lists.filter with
    | error e => rw [h2] at hok; exact Except.noConfusion hok
    | ok fil =>
    rw [h2] at hok
    cases h3 : process_field fs metadata options "postprocess" default_run_lists.postprocess with
    | error e => rw [h3] at hok; exact Except.noConfusion hok
    | ok post =>
    rw [h3] at hok
    cases h4 : process_field fs metadata options "postflight" default_run_lists.postflight with
    | error e => rw [h4] at hok; exact Except.noConfusion hok
    | ok postf =>
    rw [h4] at hok
    cases h5 : process_field fs metadata options "cleanup" default_run_lists.cleanup with
    | error e => rw [h5] at hok; exact Except.noConfusion hok
    | ok clean =>
    rw [h5] at hok
    cases hok
    exact process_field_postprocess_pdf fs metadata options _ _ hpdf h3

/-- Witness for claim C2: an options record with pdf output set yields
an empty postprocess run list on an empty metadata build. -/
theorem claim_C2_witness :
    (RunLists.mk [] [] [] [] []).postprocess = ([] : List (List String)) :=
  claim_C2.2
    { default_options with pandoc := { default_options.pandoc with pdf_output := true } }
    (fun _ => false) [] (RunLists.mk [] [] [] [] []) rfl rfl

/-- Claim C5: with a - token among the residual tokens, option
resolution records the temporary file path, writes exactly the
standard-input bytes to it, and replaces every occurrence of the
token; without the token nothing is captured and the recorded path
stays empty; and a recorded temporary file is removed by build end on
every path past setup. -/
theorem claim_C5 :
    (∀ (unknown : List String) (B : List UInt8) (temp : String), "-" ∈ unknown →
       stdin_capture unknown B temp
         = (unknown.map (fun v => if v = "-" then temp else v), temp, some B)) ∧
    (∀ (unknown : List String) (B : List UInt8) (temp : String), temp ≠ "-" →
       "-" ∉ (stdin_capture unknown B temp).1) ∧
    (∀ (unknown : List String) (B : List UInt8) (temp : String), "-" ∉ unknown →
       stdin_capture unknown B temp = (unknown, "", none)) ∧
    (∀ opts pz pd (unknown : List String) B temp dump, "-" ∈ unknown →
       (parse_cli_options opts pz pd unknown B temp dump).1.panzer.stdin_temp_file = temp ∧
       (parse_cli_options opts pz pd unknown B temp dump).2 = some B) ∧
    (∀ pf pv (fs : String → Bool) sup behavior (body : BuildSim),
       isOkE (check_pandoc_exists pf pv) = true → body.temp ≠ "" →
       Event.removeTemp body.temp ∈ (mainSim pf pv fs sup behavior body).1) := by
  refine ⟨?_, ?_, ?_, ?_, ?_⟩
  · intro u B t h
    simp [stdin_capture, h]
  · intro u B t ht
    unfold stdin_capture
    split
    · intro hmem
      simp only [List.mem_map] at hmem
      obtain ⟨v, hv, himg⟩ := hmem
      by_cases hveq : v = "-"
      · rw [if_pos hveq] at himg
        exact ht himg
      · rw [if_neg hveq] at himg
        exact hveq himg
    · rename_i hnot
      exact hnot
  · intro u B t h
    simp [stdin_capture, h]
  · intro opts pz pd u B t d h
    constructor
    · show (stdin_capture u B t).2.1 = t
      simp [stdin_capture, h]
    · show (stdin_capture u B t).2.2 = some B
      simp [stdin_capture, h]
  · intro pf pv fs sup behavior body hok ht
    unfold mainSim
    split
    · rename_i msg heq
      rw [heq] at hok
      simp [isOkE] at hok
    · cases hbe : body.bodyExn with
      | none => simp [ht]
      | some e => cases e <;> simp [ht]

/-- Witness for claim C5: capture with one dash token, and removal of
the recorded temporary file at build end. -/
theorem claim_C5_witness :
    stdin_capture ["-", "doc.md"] [104, 105] "/cwd/__panzer-a__"
      = (["/cwd/__panzer-a__", "doc.md"], "/cwd/__panzer-a__", some [104, 105]) ∧
    Event.removeTemp "/cwd/__panzer-a__"
      ∈ (mainSim true "1.13" (fun _ => true) DEFAULT_SUPPORT_DIR (fun _ => Outcome.ok "")
           ⟨[], none, default_run_lists, "/cwd/__panzer-a__"⟩).1 :=
  ⟨claim_C5.1 ["-", "doc.md"] [104, 105] "/cwd/__panzer-a__" (by simp),
   claim_C5.2.2.2.2 true "1.13" (fun _ => true) DEFAULT_SUPPORT_DIR (fun _ => Outcome.ok "")
     ⟨[], none, default_run_lists, "/cwd/__panzer-a__"⟩ (by decide) (by decide)⟩

theorem run_scripts_counts (behavior : List String → Outcome) (kind : String)
    (rl : RunLists) (f : Bool) :
    (run_scripts behavior kind rl f).1.count Event.cleanupCall = 0 ∧
    (run_scripts behavior kind rl f).1.countP isRemoveEv = 0 := by
  have hcmd : ∀ cmds : List (List String),
      (run_command_list behavior cmds f).1.count Event.cleanupCall = 0 ∧
      (run_command_list behavior cmds f).1.countP isRemoveEv = 0 := by
    intro cmds
    induction cmds with
    | nil => exact ⟨rfl, rfl⟩
    | cons c rest ih =>
      cases hb : behavior c with
      | ok s =>
        have e1 : run_command_list behavior (c :: rest) f
            = (Event.attempt (path_basename (c.headD ""))
                 :: stderr_events (path_basename (c.headD "")) s
                 ++ (run_command_list behavior rest f).1,
               (run_command_list behavior rest f).2) := by
          simp only [run_command_list, hb]
        rw [e1]
        unfold stderr_events
        by_cases hs : s = "" <;>
          simp [hs, List.count_cons, List.count_append, List.countP_cons, List.countP_append,
                ih.1, ih.2, isRemoveEv]
      | spawnFail m =>
        have e1 : run_command_list behavior (c :: rest) f
            = (Event.attempt (path_basename (c.headD ""))
                 :: Event.logError (path_basename (c.headD "")) m
                 :: (run_command_list behavior rest f).1,
               (run_command_list behavior rest f).2) := by
          simp only [run_command_list, hb]
        rw [e1]
        simp [List.count_cons, List.countP_cons, ih.1, ih.2, isRemoveEv]
      | commFail m =>
        cases f with
        | false =>
          have e1 : run_command_list behavior (c :: rest) false
              = ([Event.attempt (path_basename (c.headD ""))], some m) := by
            simp [run_command_list, hb]
          rw [e1]
          simp [List.count_cons, List.countP_cons, isRemoveEv]
        | true =>
          have e1 : run_command_list behavior (c :: rest) true
              = (Event.attempt (path_basename (c.headD ""))
                   :: Event.logError (path_basename (c.headD "")) m
                   :: (run_command_list behavior rest true).1,
                 (run_command_list behavior rest true).2) := by
            simp [run_command_list, hb]
          rw [e1]
          simp [List.count_cons, List.countP_cons, ih.1, ih.2, isRemoveEv]
  simp only [run_scripts]
  split
  · exact ⟨rfl, rfl⟩
  · exact hcmd _

theorem check_support_counts (fs : String → Bool) (sup : String) :
    (check_support_directory fs sup).2.count Event.cleanupCall = 0 ∧
    (check_support_directory fs sup).2.countP isRemoveEv = 0 := by
  constructor <;>
  · simp only [check_support_directory]
    split <;> split <;>
      simp [List.count_append, List.count_cons, List.countP_append, List.countP_cons, isRemoveEv]

/-- Claim C8: on every run of the build, successful, setup-failed, or
faulted mid-build, the cleanup-stage call happens exactly once and the
temporary-file removal happens exactly once whenever a temporary file
was recorded, both as the unconditional final step after all other
events. -/
theorem claim_C8 (pf : Bool) (pv : String) (fs : String → Bool) (sup : String)
    (behavior : List String → Outcome) (body : BuildSim)
    (h1 : Event.cleanupCall ∉ body.bodyEvents)
    (h2 : ∀ p, Event.removeTemp p ∉ body.bodyEvents) :
    (mainSim pf pv fs sup behavior body).1.count Event.cleanupCall = 1 ∧
    (mainSim pf pv fs sup behavior body).1.countP isRemoveEv
      = (if isOkE (check_pandoc_exists pf pv) = true ∧ body.temp ≠ "" then 1 else 0) ∧
    (∃ pre, (mainSim pf pv fs sup behavior body).1
        = pre ++ Event.cleanupCall
            :: ((run_scripts behavior "cleanup"
                   (if isOkE (check_pandoc_exists pf pv) = true then body.runListsFinal
                    else default_run_lists) true).1
                ++ (if isOkE (check_pandoc_exists pf pv) = true ∧ body.temp ≠ ""
                    then [Event.removeTemp body.temp] else []))
          ∧ Event.cleanupCall ∉ pre ∧ ∀ p, Event.removeTemp p ∉ pre) := by
  have hbody1 : body.bodyEvents.count Event.cleanupCall = 0 := List.count_eq_zero.mpr h1
  have hbody2 : body.bodyEvents.countP isRemoveEv = 0 := by
    rw [List.countP_eq_zero]
    intro e he
    cases e with
    | removeTemp p => exact absurd he (h2 p)
    | _ => simp [isRemoveEv]
  unfold mainSim
  split
  · rename_i msg heq
    have hX : run_scripts behavior "cleanup" default_run_lists true = ([], none) := rfl
    refine ⟨?_, ?_, ⟨[Event.printStderr msg], ?_, by simp, by simp⟩⟩
    · simp [hX, List.count_cons]
    · simp [hX, List.countP_cons, isRemoveEv, isOkE, heq]
    · simp [hX, isOkE, heq]
  · rename_i u heq
    have hsup := check_support_counts fs sup
    have hexec := run_scripts_counts behavior "cleanup" body.runListsFinal true
    have hsup1 : Event.cleanupCall ∉ (check_support_directory fs sup).2 :=
      List.count_eq_zero.mp hsup.1
    have hsup2 : ∀ p, Event.removeTemp p ∉ (check_support_directory fs sup).2 := by
      intro p hp
      have hfoo := List.countP_eq_zero.mp hsup.2 _ hp
      simp [isRemoveEv] at hfoo
    cases hbe : body.bodyExn with
    | none =>
      refine ⟨?_, ?_, ⟨(check_support_directory fs sup).2 ++ body.bodyEvents, ?_, ?_, ?_⟩⟩
      · by_cases htemp : body.temp = "" <;>
          simp [htemp, List.count_append, List.count_cons, hsup.1, hbody1, hexec.1]
      · by_cases htemp : body.temp = "" <;>
          simp [htemp, isOkE, heq, List.countP_append, List.countP_cons, hsup.2, hbody2,
                hexec.2, isRemoveEv]
      · by_cases htemp : body.temp = "" <;> simp [htemp, isOkE, heq, List.append_assoc]
      · simp [List.mem_append, hsup1, h1]
      · intro p
        simp [List.mem_append, hsup2 p, h2 p]
    | some e =>
      cases e with
      | calledProcess =>
        refine ⟨?_, ?_, ⟨(check_support_directory fs sup).2 ++ body.bodyEvents
            ++ [Event.logCritical "cannot continue because of fatal error"], ?_, ?_, ?_⟩⟩
        · by_cases htemp : body.temp = "" <;>
            simp [htemp, List.count_append, List.count_cons, hsup.1, hbody1, hexec.1]
        · by_cases htemp : body.temp = "" <;>
            simp [htemp, isOkE, heq, List.countP_append, List.countP_cons, hsup.2, hbody2,
                  hexec.2, isRemoveEv]
        · by_cases htemp : body.temp = "" <;> simp [htemp, isOkE, heq, List.append_assoc]
        · simp [List.mem_append, hsup1, h1]
        · intro p
          simp [List.mem_append, hsup2 p, h2 p]
      | metaError m =>
        refine ⟨?_, ?_, ⟨(check_support_directory fs sup).2 ++ body.bodyEvents
            ++ [Event.logCritical m], ?_, ?_, ?_⟩⟩
        · by_cases htemp : body.temp = "" <;>
            simp [htemp, List.count_append, List.count_cons, hsup.1, hbody1, hexec.1]
        · by_cases htemp : body.temp = "" <;>
            simp [htemp, isOkE, heq, List.countP_append, List.countP_cons, hsup.2, hbody2,
                  hexec.2, isRemoveEv]
        · by_cases htemp : body.temp = "" <;> simp [htemp, isOkE, heq, List.append_assoc]
        · simp [List.mem_append, hsup1, h1]
        · intro p
          simp [List.mem_append, hsup2 p, h2 p]
      | uncaught m =>
        refine ⟨?_, ?_, ⟨(check_support_directory fs sup).2 ++ body.bodyEvents, ?_, ?_, ?_⟩⟩
        · by_cases htemp : body.temp = "" <;>
            simp [htemp, List.count_append, List.count_cons, hsup.1, hbody1, hexec.1]
        · by_cases htemp : body.temp = "" <;>
            simp [htemp, isOkE, heq, List.countP_append, List.countP_cons, hsup.2, hbody2,
                  hexec.2, isRemoveEv]
        · by_cases htemp : body.temp = "" <;> simp [htemp, isOkE, heq, List.append_assoc]
        · simp [List.mem_append, hsup1, h1]
        · intro p
          simp [List.mem_append, hsup2 p, h2 p]

/-- Witness for claim C8 on a successful build with a recorded
temporary file. -/
theorem claim_C8_witness :
    (mainSim true "1.13" (fun _ => true) DEFAULT_SUPPORT_DIR (fun _ => Outcome.ok "")
        ⟨[], none, default_run_lists, "/cwd/t"⟩).1.count Event.cleanupCall = 1 :=
  (claim_C8 true "1.13" (fun _ => true) DEFAULT_SUPPORT_DIR (fun _ => Outcome.ok "")
      ⟨[], none, default_run_lists, "/cwd/t"⟩ (by simp) (by simp)).1

/-- Counterexample to claim C9: a support directory that does not
exist on the filesystem is not a setup fault: the build falls back to
the default support directory, runs, and exits with code 0, not 1. -/
theorem claim_C9_counterexample :
    ((fun s => decide (s = DEFAULT_SUPPORT_DIR)) "/custom" = false) ∧
    (check_support_directory (fun s => decide (s = DEFAULT_SUPPORT_DIR)) "/custom").1
      = DEFAULT_SUPPORT_DIR ∧
    (mainSim true "1.13" (fun s => decide (s = DEFAULT_SUPPORT_DIR)) "/custom"
        (fun _ => Outcome.ok "") ⟨[], none, default_run_lists, ""⟩).2 = some 0 :=
  ⟨rfl, rfl, rfl⟩

/-- Claim C9 as amended: a missing wrapped tool, or a wrapped tool
whose version is below the required minimum, is reported to the error
stream and the process exits with code 1 before any stage runs, the
cleanup stage still attempted on the empty default run lists; an
unusable support directory is not a fatal setup fault: it is logged
and the default support directory is substituted, and the build
continues. -/
theorem claim_C9_amended :
    (∀ pv (fs : String → Bool) sup behavior (body : BuildSim),
       mainSim false pv fs sup behavior body
         = ([Event.printStderr "pandoc not found", Event.cleanupCall], some 1)) ∧
    (∀ pv, tupleLt (versiontuple pv) (versiontuple REQUIRE_PANDOC_ATLEAST) = true →
       ∀ (fs : String → Bool) sup behavior (body : BuildSim),
       mainSim true pv fs sup behavior body
         = ([Event.printStderr ("pandoc " ++ REQUIRE_PANDOC_ATLEAST
              ++ " or greater required---found pandoc version " ++ pv), Event.cleanupCall],
            some 1)) ∧
    (∀ (fs : String → Bool) sup, sup ≠ DEFAULT_SUPPORT_DIR → fs sup = false →
       (check_support_directory fs sup).1 = DEFAULT_SUPPORT_DIR) := by
  refine ⟨?_, ?_, ?_⟩
  · intro pv fs sup behavior body
    rfl
  · intro pv h fs sup behavior body
    have hc : check_pandoc_exists true pv
        = .error ("pandoc " ++ REQUIRE_PANDOC_ATLEAST
            ++ " or greater required---found pandoc version " ++ pv) := by
      unfold check_pandoc_exists
      rw [if_neg (by simp), if_pos h]
    unfold mainSim
    rw [hc]
    rfl
  · intro fs sup h1 h2
    simp only [check_support_directory]
    rw [if_pos ⟨h1, h2⟩]

/-- Witness for the amended claim C9 at a pandoc version below the
required minimum. -/
theorem claim_C9_witness :
    mainSim true "1.12" (fun _ => true) DEFAULT_SUPPORT_DIR (fun _ => Outcome.ok "")
        ⟨[], none, default_run_lists, ""⟩
      = ([Event.printStderr "pandoc 1.12.1 or greater required---found pandoc version 1.12",
          Event.cleanupCall], some 1) :=
  claim_C9_amended.2.1 "1.12" (by decide) (fun _ => true) DEFAULT_SUPPORT_DIR
    (fun _ => Outcome.ok "") ⟨[], none, default_run_lists, ""⟩

end Panzer




